import Mathlib

/-!
Verification development for the ai-image-gallery metadata-extraction core.

The definitions below are a shallow embedding of the JavaScript sources:
  - src/js/parsers/pngChunkExtractor.js  (extractPNGTextChunks)
  - src/js/parsers/chatgptParser.js      (extractChatGPTInfo)
  - src/js/parsers/comfyuiParser.js      (extractComfyUIInfo)
  - src/js/thumbnailGenerator.js         (generateThumbnailWithPosition, crop rectangle)
  - src/unnamed/part_011 (utils.js)      (cleanPromptText)

JavaScript dynamic values produced by JSON.parse are modelled by the
inductive type JsVal; JSON numbers are modelled as exact rationals
(IEEE-754 double rounding is not modelled; no claim below depends on it).
JS strings are modelled by Lean strings (sequences of Unicode scalar
values; lone UTF-16 surrogates are not representable and are mapped to
U+FFFD by the string-escape reader; no claim below depends on them).
-/

/-- A JSON number as an exact decimal `m * 10 ^ e` (the shape produced
by a JSON numeric literal). IEEE-754 double rounding is not modelled;
no claim below depends on it. -/
structure DecNum where
  m : Int
  e : Int

/-- Numeric value equality of two decimal numbers (JS `===` and the
SameValueZero equality used by `Set`). -/
def decEqB (a b : DecNum) : Bool :=
  if a.e ≥ b.e then a.m * (10 : Int) ^ (a.e - b.e).toNat == b.m
  else a.m == b.m * (10 : Int) ^ (b.e - a.e).toNat

/-- The decimal number denoting a natural number. -/
def decOfNat (n : Nat) : DecNum := ⟨(n : Int), 0⟩

/-- A JavaScript value as produced by JSON.parse: null, boolean, number,
string, array, or plain object (field list in insertion order, duplicate
keys already collapsed to the last value as JSON.parse does). -/
inductive JsVal where
  | null : JsVal
  | b : Bool → JsVal
  | num : DecNum → JsVal
  | s : String → JsVal
  | arr : List JsVal → JsVal
  | obj : List (String × JsVal) → JsVal

/-- `true` exactly on string values (JS `typeof v === "string"`). -/
def isStrV : JsVal → Bool
  | JsVal.s _ => true
  | _ => false

/-- `true` exactly on the value `null`. -/
def isNullV : JsVal → Bool
  | JsVal.null => true
  | _ => false

/-- JS truthiness of a value: null, false, 0 and "" are falsy; every
array and object is truthy. -/
def jsTruthy : JsVal → Bool
  | JsVal.null => false
  | JsVal.b x => x
  | JsVal.num q => !(q.m == 0)
  | JsVal.s t => !(t == "")
  | JsVal.arr _ => true
  | JsVal.obj _ => true

/-- JSON whitespace characters (ECMA-404 / JSON.parse). -/
def isJsonWs (c : Char) : Bool :=
  c == ' ' || c == '\t' || c == '\n' || c == '\r'

/-- Drop leading JSON whitespace. -/
def skipWs : List Char → List Char
  | [] => []
  | c :: cs => if isJsonWs c then skipWs cs else c :: cs

/-- Value of one hexadecimal digit. -/
def hexVal (c : Char) : Option Nat :=
  if '0' ≤ c ∧ c ≤ '9' then some (c.toNat - '0'.toNat)
  else if 'a' ≤ c ∧ c ≤ 'f' then some (c.toNat - 'a'.toNat + 10)
  else if 'A' ≤ c ∧ c ≤ 'F' then some (c.toNat - 'A'.toNat + 10)
  else none

/-- Read the body of a JSON string literal (the opening quote already
consumed): returns the decoded characters and the remaining input.
Escapes follow JSON.parse; a `\u` escape that is a high surrogate is
combined with a following low-surrogate escape; a lone surrogate (not
a Unicode scalar, unrepresentable in a Lean string) becomes U+FFFD.
Raw control characters below U+0020 are rejected, as JSON.parse does. -/
def parseStrGo : Nat → List Char → List Char → Option (List Char × List Char)
  | 0, _, _ => none
  | _ + 1, _, [] => none
  | _ + 1, acc, '"' :: rest => some (acc.reverse, rest)
  | f + 1, acc, '\\' :: 'n' :: rest => parseStrGo f ('\n' :: acc) rest
  | f + 1, acc, '\\' :: 't' :: rest => parseStrGo f ('\t' :: acc) rest
  | f + 1, acc, '\\' :: 'r' :: rest => parseStrGo f ('\r' :: acc) rest
  | f + 1, acc, '\\' :: 'b' :: rest => parseStrGo f ('\x08' :: acc) rest
  | f + 1, acc, '\\' :: 'f' :: rest => parseStrGo f ('\x0C' :: acc) rest
  | f + 1, acc, '\\' :: '/' :: rest => parseStrGo f ('/' :: acc) rest
  | f + 1, acc, '\\' :: '\\' :: rest => parseStrGo f ('\\' :: acc) rest
  | f + 1, acc, '\\' :: '"' :: rest => parseStrGo f ('"' :: acc) rest
  | f + 1, acc, '\\' :: 'u' :: h1 :: h2 :: h3 :: h4 :: rest =>
    match hexVal h1, hexVal h2, hexVal h3, hexVal h4 with
    | some a, some b, some c, some d =>
      let code := a * 4096 + b * 256 + c * 16 + d
      if 0xD800 ≤ code ∧ code ≤ 0xDBFF then
        match rest with
        | '\\' :: 'u' :: k1 :: k2 :: k3 :: k4 :: rest2 =>
          match hexVal k1, hexVal k2, hexVal k3, hexVal k4 with
          | some a2, some b2, some c2, some d2 =>
            let lo := a2 * 4096 + b2 * 256 + c2 * 16 + d2
            if 0xDC00 ≤ lo ∧ lo ≤ 0xDFFF then
              let cp := 0x10000 + (code - 0xD800) * 1024 + (lo - 0xDC00)
              parseStrGo f (Char.ofNat cp :: acc) rest2
            else parseStrGo f (Char.ofNat lo :: '�' :: acc) rest2
          | _, _, _, _ => none
        | _ => parseStrGo f ('�' :: acc) rest
      else if 0xDC00 ≤ code ∧ code ≤ 0xDFFF then
        parseStrGo f ('�' :: acc) rest
      else parseStrGo f (Char.ofNat code :: acc) rest
    | _, _, _, _ => none
  | _ + 1, _, '\\' :: _ => none
  | f + 1, acc, c :: rest => if c.toNat < 0x20 then none else parseStrGo f (c :: acc) rest

/-- Digits of a nonnegative decimal integer, read left to right. -/
def digitsToNat : List Char → Nat
  | cs => cs.foldl (fun n c => n * 10 + (c.toNat - '0'.toNat)) 0

/-- Read a JSON number literal (grammar `-? int frac? exp?` with the
strict JSON integer part: a single 0 or a nonzero leading digit); any
trailing characters that cannot extend the literal are left unread, and
the surrounding grammar then rejects them exactly as JSON.parse does.
The exact decimal value is returned. -/
def parseNum (cs : List Char) : Option (DecNum × List Char) :=
  let (neg, cs1) := match cs with
    | '-' :: rest => (true, rest)
    | _ => (false, cs)
  let intR : Option (Nat × List Char) := match cs1 with
    | '0' :: rest => some (0, rest)
    | c :: rest =>
      if c.isDigit ∧ c ≠ '0' then
        let run := (c :: rest).takeWhile Char.isDigit
        some (digitsToNat run, (c :: rest).drop run.length)
      else none
    | [] => none
  match intR with
  | none => none
  | some (ip, cs2) =>
    let fracR : Option (Nat × Nat × List Char) := match cs2 with
      | '.' :: rest =>
        let run := rest.takeWhile Char.isDigit
        if run.length = 0 then none
        else some (digitsToNat run, run.length, rest.drop run.length)
      | _ => some (0, 0, cs2)
    match fracR with
    | none => none
    | some (fv, fl, cs3) =>
      let expR : Option (Int × List Char) := match cs3 with
        | e :: rest =>
          if e = 'e' ∨ e = 'E' then
            let (eneg, rest2) := match rest with
              | '-' :: r2 => (true, r2)
              | '+' :: r2 => (false, r2)
              | _ => (false, rest)
            let run := rest2.takeWhile Char.isDigit
            if run.length = 0 then none
            else
              let ev : Int := digitsToNat run
              some (if eneg then -ev else ev, rest2.drop run.length)
          else some (0, cs3)
        | [] => some (0, cs3)
      match expR with
      | none => none
      | some (ex, cs4) =>
        let mag : Int := (ip * 10 ^ fl + fv : Nat)
        some (⟨if neg then -mag else mag, ex - fl⟩, cs4)

/-- Insert key `k` with value `v` into an object field list the way a JS
object assignment does: an existing key keeps its position and gets the
new value, a new key is appended. -/
def objIns (kvs : List (String × JsVal)) (k : String) (v : JsVal) : List (String × JsVal) :=
  match kvs with
  | [] => [(k, v)]
  | (k0, v0) :: rest => if k0 = k then (k0, v) :: rest else (k0, v0) :: objIns rest k v

mutual

/-- Recursive-descent reader for one JSON value, mirroring JSON.parse.
`fuel` only bounds recursion; every recursive call consumes at least one
input character, so the fuel chosen by `jsonParse` is never exhausted. -/
def parseVal : Nat → List Char → Option (JsVal × List Char)
  | 0, _ => none
  | _ + 1, 'n' :: 'u' :: 'l' :: 'l' :: rest => some (JsVal.null, rest)
  | _ + 1, 't' :: 'r' :: 'u' :: 'e' :: rest => some (JsVal.b true, rest)
  | _ + 1, 'f' :: 'a' :: 'l' :: 's' :: 'e' :: rest => some (JsVal.b false, rest)
  | _ + 1, '"' :: rest =>
    match parseStrGo (rest.length + 1) [] rest with
    | some (cs, rest2) => some (JsVal.s (String.mk cs), rest2)
    | none => none
  | f + 1, '[' :: rest =>
    let rest2 := skipWs rest
    match rest2 with
    | ']' :: rest3 => some (JsVal.arr [], rest3)
    | _ => parseElems f rest2 []
  | f + 1, '\x7b' :: rest =>
    let rest2 := skipWs rest
    match rest2 with
    | '\x7d' :: rest3 => some (JsVal.obj [], rest3)
    | _ => parseMembers f rest2 []
  | _ + 1, c :: rest =>
    if c = '-' ∨ c.isDigit then
      match parseNum (c :: rest) with
      | some (q, rest2) => some (JsVal.num q, rest2)
      | none => none
    else none
  | _ + 1, [] => none

/-- Elements of a JSON array after the opening bracket (first element
pending); `acc` holds earlier elements in reverse. -/
def parseElems : Nat → List Char → List JsVal → Option (JsVal × List Char)
  | 0, _, _ => none
  | f + 1, cs, acc =>
    match parseVal f cs with
    | none => none
    | some (v, rest) =>
      match skipWs rest with
      | ',' :: rest2 => parseElems f (skipWs rest2) (v :: acc)
      | ']' :: rest2 => some (JsVal.arr (v :: acc).reverse, rest2)
      | _ => none

/-- Members of a JSON object after the opening brace (first member
pending); `acc` holds earlier members in insertion order. -/
def parseMembers : Nat → List Char → List (String × JsVal) → Option (JsVal × List Char)
  | 0, _, _ => none
  | f + 1, cs, acc =>
    match cs with
    | '"' :: rest =>
      match parseStrGo (rest.length + 1) [] rest with
      | none => none
      | some (kcs, rest2) =>
        match skipWs rest2 with
        | ':' :: rest3 =>
          match parseVal f (skipWs rest3) with
          | none => none
          | some (v, rest4) =>
            let acc2 := objIns acc (String.mk kcs) v
            match skipWs rest4 with
            | ',' :: rest5 => parseMembers f (skipWs rest5) acc2
            | '\x7d' :: rest5 => some (JsVal.obj acc2, rest5)
            | _ => none
        | _ => none
    | _ => none

end

/-- JSON.parse modelled as a total function: `some v` when the whole
string is one JSON document, `none` when JSON.parse would throw. -/
def jsonParse (str : String) : Option JsVal :=
  match parseVal (2 * str.length + 16) (skipWs str.data) with
  | some (v, rest) => if (skipWs rest).isEmpty then some v else none
  | none => none

/-- The canonical Nat denoted by a string, when the string is a plain
decimal numeral without leading zeros (JS array-index property names). -/
def natOfCanonical (k : String) : Option Nat :=
  match k.data with
  | [] => none
  | ['0'] => some 0
  | c :: rest =>
    if c.isDigit ∧ c ≠ '0' ∧ rest.all Char.isDigit then some (digitsToNat (c :: rest))
    else none

/-- Property read `v[k]` on a non-null JS value: object fields by name,
arrays with their `length` and numeric indices, strings with `length`
and their characters; every other read yields `undefined` (`none`).
Reading a property of `null` throws in JS and is handled explicitly at
each call site, never through this function. -/
def jsGetF (v : JsVal) (k : String) : Option JsVal :=
  match v with
  | JsVal.obj kvs => (kvs.find? (fun kv => kv.1 == k)).map (fun kv => kv.2)
  | JsVal.arr xs =>
    if k == "length" then some (JsVal.num (decOfNat xs.length))
    else match natOfCanonical k with
      | some i => xs.get? i
      | none => none
  | JsVal.s t =>
    if k == "length" then some (JsVal.num (decOfNat t.length))
    else match natOfCanonical k with
      | some i => (t.data.get? i).map (fun c => JsVal.s (String.mk [c]))
      | none => none
  | _ => none

/-- Truthiness of a possibly-undefined property value. -/
def jsTruthyO (o : Option JsVal) : Bool :=
  match o with
  | some v => jsTruthy v
  | none => false

/-- Decimal digits of a natural number, most significant first (`fuel`
bounds the digit count; 64 covers every number built here). -/
def natDigitsGo : Nat → Nat → List Char → List Char
  | 0, _, acc => acc
  | f + 1, n, acc =>
    if n = 0 then acc
    else natDigitsGo f (n / 10) (Char.ofNat ('0'.toNat + n % 10) :: acc)

/-- Decimal rendering of a natural number. -/
def natToDec (n : Nat) : String :=
  if n = 0 then "0" else String.mk (natDigitsGo 64 n [])

/-- Strip factors of ten from a nonzero magnitude, returning the reduced
magnitude and the number of factors removed. -/
def stripTens : Nat → Nat → Nat × Nat
  | 0, n => (n, 0)
  | f + 1, n =>
    if n ≠ 0 ∧ n % 10 = 0 then
      let (n2, k) := stripTens f (n / 10)
      (n2, k + 1)
    else (n, 0)

/-- Decimal rendering of a `DecNum`, matching how JS prints numbers in
plain decimal notation (sign, integer digits, fractional digits without
trailing zeros; zero prints "0"). JS switches to exponent notation for
magnitudes at or above 1e21 or below 1e-6 — not modelled, and no claim
below evaluates such a number. -/
def decToString (d : DecNum) : String :=
  if d.m = 0 then "0"
  else
    let (n, k) := stripTens 64 d.m.natAbs
    let e := d.e + k
    let sign := if d.m < 0 then "-" else ""
    let digs := (natToDec n).data
    if e ≥ 0 then sign ++ String.mk digs ++ String.mk (List.replicate e.toNat '0')
    else
      let fr := (-e).toNat
      if fr < digs.length then
        sign ++ String.mk (digs.take (digs.length - fr)) ++ "." ++ String.mk (digs.drop (digs.length - fr))
      else
        sign ++ "0." ++ String.mk (List.replicate (fr - digs.length) '0') ++ String.mk digs

mutual

/-- JS string coercion of a value (template-literal interpolation):
numbers print their decimal value (all JSON-parsed numbers have finite
decimal expansions), arrays join their elements with commas coercing
null to the empty string, plain objects print "[object Object]". -/
def jsToString : JsVal → String
  | JsVal.null => "null"
  | JsVal.b true => "true"
  | JsVal.b false => "false"
  | JsVal.num q => decToString q
  | JsVal.s t => t
  | JsVal.arr xs => jsArrToString xs
  | JsVal.obj _ => "[object Object]"

/-- `Array.prototype.join(",")` with JS element coercion. -/
def jsArrToString : List JsVal → String
  | [] => ""
  | [v] =>
    match v with
    | JsVal.null => ""
    | w => jsToString w
  | v :: rest =>
    (match v with
     | JsVal.null => ""
     | w => jsToString w) ++ "," ++ jsArrToString rest

end


mutual

/-- Structural value equality on JS values. Used only to model the
SameValueZero equality of `Set` membership for node-type values; for
primitive values (the only values that occur there in practice) it
coincides with JS semantics. JS compares objects by identity, which a
value embedding cannot express; no claim below depends on it. -/
def jsEqB : JsVal → JsVal → Bool
  | JsVal.null, JsVal.null => true
  | JsVal.b x, JsVal.b y => x == y
  | JsVal.num x, JsVal.num y => decEqB x y
  | JsVal.s x, JsVal.s y => x == y
  | JsVal.arr xs, JsVal.arr ys => jsListEqB xs ys
  | JsVal.obj xs, JsVal.obj ys => jsKvsEqB xs ys
  | _, _ => false

/-- Pointwise equality of value lists. -/
def jsListEqB : List JsVal → List JsVal → Bool
  | [], [] => true
  | x :: xs, y :: ys => jsEqB x y && jsListEqB xs ys
  | _, _ => false

/-- Pointwise equality of field lists. -/
def jsKvsEqB : List (String × JsVal) → List (String × JsVal) → Bool
  | [], [] => true
  | (k1, v1) :: xs, (k2, v2) :: ys => k1 == k2 && jsEqB v1 v2 && jsKvsEqB xs ys
  | _, _ => false

end

/-- JS ToNumber coercion, restricted to the value shapes that can occur
here: numbers are themselves, null is 0, booleans are 0/1, a string is
trimmed and read as an optionally signed decimal literal ("" is 0),
arrays coerce through their joined string, objects are NaN. `none`
stands for NaN. (Hex/Infinity string forms are not modelled; no claim
below evaluates them.) -/
def strToNumber (t : String) : Option DecNum :=
  let cs := t.data.dropWhile (fun c => isJsonWs c) |>.reverse.dropWhile (fun c => isJsonWs c) |>.reverse
  if cs.isEmpty then some ⟨0, 0⟩
  else
    let (neg, cs1) := match cs with
      | '-' :: rest => (true, rest)
      | '+' :: rest => (false, rest)
      | _ => (false, cs)
    let ir := cs1.takeWhile Char.isDigit
    let cs2 := cs1.drop ir.length
    let (fv, fl, cs3) := match cs2 with
      | '.' :: rest =>
        let run := rest.takeWhile Char.isDigit
        (digitsToNat run, run.length, rest.drop run.length)
      | _ => (0, 0, cs2)
    if cs3.isEmpty ∧ (ir.length + fl > 0) then
      let mag : Int := (digitsToNat ir * 10 ^ fl + fv : Nat)
      some ⟨if neg then -mag else mag, -(fl : Int)⟩
    else none

/-- ToNumber on a JS value (see `strToNumber`). -/
def jsToNumber : JsVal → Option DecNum
  | JsVal.null => some ⟨0, 0⟩
  | JsVal.b true => some ⟨1, 0⟩
  | JsVal.b false => some ⟨0, 0⟩
  | JsVal.num q => some q
  | JsVal.s t => strToNumber t
  | JsVal.arr xs => strToNumber (jsArrToString xs)
  | JsVal.obj _ => none

/-- The JS comparison `x > 0` for a possibly-undefined value
(`undefined > 0` and `NaN > 0` are false). -/
def jsGtZeroO (o : Option JsVal) : Bool :=
  match o with
  | none => false
  | some v =>
    match jsToNumber v with
    | none => false
    | some d => 0 < d.m

/-- JS whitespace trimmed by `String.prototype.trim` (ASCII subset; the
unicode space characters it also trims cannot occur in the inputs the
claims evaluate). -/
def isJsWs (c : Char) : Bool :=
  c == ' ' || c == '\t' || c == '\n' || c == '\r' || c == '\x0b' || c == '\x0c'

/-- `String.prototype.trim`. -/
def jsTrimStr (t : String) : String :=
  String.mk (t.data.dropWhile isJsWs |>.reverse.dropWhile isJsWs |>.reverse)

/-- The PNG text-chunk mapping as seen by the tool parsers, restricted
to the five keys the parsers read (`chunks.workflow`, `chunks.prompt`,
`chunks.parameters`, `chunks.Software`, `chunks.software`); no other
key is ever accessed by either parser, so a record of the five optional
values is a faithful projection of an arbitrary chunk map whose values
are all strings. -/
structure Chunks where
  workflow : Option String := none
  prompt : Option String := none
  parameters : Option String := none
  Software : Option String := none
  software : Option String := none

/-- Truthiness of an optional chunk value: present and non-empty. -/
def truthyS (o : Option String) : Bool :=
  match o with
  | some t => !(t == "")
  | none => false

/-- The record both parsers build (`aiInfo` in the sources). The four
fields that the JS code only ever assigns string expressions to are
typed `String`; `model` is typed `JsVal` because `chatgptParser.js`
line 40 assigns it the raw parsed JSON `tool` value, which need not be
a string. All fields start as the empty string. -/
structure AiInfo where
  title : String := ""
  prompt : String := ""
  model : JsVal := JsVal.s ""
  tags : String := ""
  notes : String := ""

/-- src/js/parsers/chatgptParser.js, extractChatGPTInfo (lines 10-84).
The try block throws exactly when JSON.parse fails or the parsed value
is null (the first property read on it, line 28, throws); in both cases
no field has been written yet, and the catch appends the parse-failure
note and sets the generic tags (lines 76-80). -/
def extractChatGPTInfo (chunks : Chunks) : AiInfo :=
  let aiInfo : AiInfo := {}
  if truthyS chunks.prompt then
    let p := chunks.prompt.getD ""
    match jsonParse p with
    | none =>
      { aiInfo with
        notes := aiInfo.notes ++ "🤖 ChatGPT data found but could not parse JSON\n",
        tags := "ChatGPT,AI-Generated" }
    | some d =>
      if isNullV d then
        { aiInfo with
          notes := aiInfo.notes ++ "🤖 ChatGPT data found but could not parse JSON\n",
          tags := "ChatGPT,AI-Generated" }
      else
        let dPrompt := jsGetF d "prompt"
        let c1 := if jsTruthyO dPrompt then "USER PROMPT:\n" ++ jsToString (dPrompt.getD JsVal.null) ++ "\n\n" else ""
        let dInternal := jsGetF d "internal_prompt"
        let c2 := if jsTruthyO dInternal then "INTERNAL PROMPT:\n" ++ jsToString (dInternal.getD JsVal.null) else ""
        let promptV := jsTrimStr (c1 ++ c2)
        let dTool := jsGetF d "tool"
        let modelV := if jsTruthyO dTool then dTool.getD JsVal.null else aiInfo.model
        let dDate := jsGetF d "date_generated"
        let n1 := "🤖 ChatGPT Image Generation\n"
        let n2 := n1 ++ "📅 Generated: " ++ (if jsTruthyO dDate then jsToString (dDate.getD JsVal.null) else "Unknown") ++ "\n"
        let optLine := fun (k pre suf : String) =>
          let dv := jsGetF d k
          if jsTruthyO dv then pre ++ jsToString (dv.getD JsVal.null) ++ suf ++ "\n" else ""
        let n3 := n2 ++ optLine "filename" "📄 Original filename: " ""
        let n4 := n3 ++ optLine "style" "🎨 Style: " ""
        let n5 := n4 ++ optLine "aspect_ratio" "📐 Aspect ratio: " ""
        let n6 := n5 ++ optLine "resolution" "🔍 Resolution: " ""
        let n7 := n6 ++ optLine "file_size_mb" "💾 File size: " " MB"
        let n8 := n7 ++ optLine "source_image" "🖼️ Source image: " ""
        { aiInfo with
          prompt := promptV,
          model := modelV,
          notes := n8,
          tags := "ChatGPT,AI-Generated,Image-Gen" }
  else aiInfo

/-- Code-unit lexicographic string comparison, JS `a < b` on strings. -/
def listLtCh : List Char → List Char → Bool
  | [], [] => false
  | [], _ :: _ => true
  | _ :: _, [] => false
  | a :: as, b :: bs =>
    if a.toNat < b.toNat then true
    else if b.toNat < a.toNat then false
    else listLtCh as bs

/-- JS string comparison used by the default Array sort comparator. -/
def strLtB (a b : String) : Bool := listLtCh a.data b.data

/-- Insert into an ascending list (insertion sort step). -/
def insStr (x : String) : List String → List String
  | [] => [x]
  | y :: ys => if strLtB y x then y :: insStr x ys else x :: y :: ys

/-- `Array.prototype.sort()` with the default comparator on a list of
strings: ascending code-unit order. -/
def sortStrs (l : List String) : List String := l.foldl (fun acc x => insStr x acc) []

/-- Own enumerable properties in insertion order, as visited by JS
`for (const k in v)` and `Object.keys(v)`: object fields, array
indices, string indices; primitives have none. -/
def enumEntries : JsVal → List (String × JsVal)
  | JsVal.obj kvs => kvs
  | JsVal.arr xs => xs.enum.map (fun p => (natToDec p.1, p.2))
  | JsVal.s t => t.data.enum.map (fun p => (natToDec p.1, JsVal.s (String.mk [p.2])))
  | _ => []

/-- `Set.prototype.add` in insertion order with SameValueZero equality
(see `jsEqB`). -/
def addTypeVal (acc : List JsVal) (t : JsVal) : List JsVal :=
  if acc.any (fun u => jsEqB u t) then acc else acc ++ [t]

/-- comfyuiParser.js lines 31-38: the forEach over `workflow.nodes`
collecting truthy `node.type` values into the Set; reading `.type` on a
null element throws (`Except.error`). -/
def collectTypesNew : List JsVal → List JsVal → Except Unit (List JsVal)
  | acc, [] => Except.ok acc
  | acc, node :: rest =>
    if isNullV node then Except.error ()
    else
      let t := jsGetF node "type"
      if jsTruthyO t then collectTypesNew (addTypeVal acc (t.getD JsVal.null)) rest
      else collectTypesNew acc rest

/-- comfyuiParser.js lines 41-47: the for-in over the old workflow
format collecting truthy `node.class_type` values; reading a property
on a null value throws. -/
def collectClassOld : List JsVal → List (String × JsVal) → Except Unit (List JsVal)
  | acc, [] => Except.ok acc
  | acc, (_, node) :: rest =>
    if isNullV node then Except.error ()
    else
      let t := jsGetF node "class_type"
      if jsTruthyO t then collectClassOld (addTypeVal acc (t.getD JsVal.null)) rest
      else collectClassOld acc rest

/-- comfyuiParser.js lines 59-68: scan the new-format nodes for the
first CLIPTextEncode node whose first widget value is a string longer
than 10 characters, while the prompt field is still empty; reading a
property on a null element throws. -/
def findPromptNew (cur : String) : List JsVal → Except Unit String
  | [] => Except.ok cur
  | node :: rest =>
    if isNullV node then Except.error ()
    else
      let tOk := match jsGetF node "type" with
        | some (JsVal.s t) => t == "CLIPTextEncode"
        | _ => false
      let wv := jsGetF node "widgets_values"
      if tOk && jsTruthyO wv && jsGtZeroO (jsGetF (wv.getD JsVal.null) "length") then
        match jsGetF (wv.getD JsVal.null) "0" with
        | some (JsVal.s text) =>
          if text.length > 10 && cur == "" then Except.ok text
          else findPromptNew cur rest
        | _ => findPromptNew cur rest
      else findPromptNew cur rest

/-- comfyuiParser.js lines 71-79: scan the old-format node values for
the first truthy string `node.inputs.text` longer than 10 characters,
while the prompt field is still empty. -/
def findPromptOld (cur : String) : List (String × JsVal) → Except Unit String
  | [] => Except.ok cur
  | (_, node) :: rest =>
    if isNullV node then Except.error ()
    else
      let inputs := jsGetF node "inputs"
      if jsTruthyO inputs then
        match jsGetF (inputs.getD JsVal.null) "text" with
        | some (JsVal.s t) =>
          if !(t == "") then
            if t.length > 10 && cur == "" then Except.ok t
            else findPromptOld cur rest
          else findPromptOld cur rest
        | _ => findPromptOld cur rest
      else findPromptOld cur rest

/-- comfyuiParser.js lines 92-97: first string property value longer
than 10 characters among the top-level entries of the parsed prompt
data, while the prompt field is still empty. -/
def scanPromptData (cur : String) : List (String × JsVal) → String
  | [] => cur
  | (_, v) :: rest =>
    match v with
    | JsVal.s t => if t.length > 10 && cur == "" then t else scanPromptData cur rest
    | _ => scanPromptData cur rest

/-- comfyuiParser.js lines 20-84: the `chunks.workflow` try block,
threading the two fields it writes (notes, prompt). The date line uses
`new Date().toLocaleDateString()`, passed in as `today`. A throw inside
the try (JSON.parse failure, or a property read on null: the parsed
value itself at line 31, or a null node inside the loops) lands in the
catch, which appends the raw-data note to the notes written so far. -/
def comfyWorkflow (today w notes0 prompt0 : String) : String × String :=
  match jsonParse w with
  | none => (notes0 ++ "🔧 ComfyUI Workflow data found (raw)\n", prompt0)
  | some wf =>
    let notes1 := notes0 ++ "📅 Generated: " ++ today ++ "\n"
    if isNullV wf then (notes1 ++ "🔧 ComfyUI Workflow data found (raw)\n", prompt0)
    else
      let newFmt : Option (List JsVal) := match jsGetF wf "nodes" with
        | some (JsVal.arr xs) => some xs
        | _ => none
      let structureRes : Except Unit (Nat × List JsVal) :=
        match newFmt with
        | some xs => (collectTypesNew [] xs).map (fun ts => (xs.length, ts))
        | none =>
          match wf with
          | JsVal.obj _ => (collectClassOld [] (enumEntries wf)).map (fun ts => ((enumEntries wf).length, ts))
          | JsVal.arr _ => (collectClassOld [] (enumEntries wf)).map (fun ts => ((enumEntries wf).length, ts))
          | _ => Except.ok (0, [])
      match structureRes with
      | Except.error _ => (notes1 ++ "🔧 ComfyUI Workflow data found (raw)\n", prompt0)
      | Except.ok (nodeCount, types) =>
        let notes2 := notes1 ++ "🔧 ComfyUI Workflow detected (" ++ natToDec nodeCount ++ " nodes)\n"
        let notes3 :=
          if types.length > 0 then
            notes2 ++ "🔗 Node Types: " ++ String.intercalate ", " (sortStrs (types.map jsToString)) ++ "\n"
          else notes2
        let promptRes : Except Unit String :=
          match newFmt with
          | some xs => findPromptNew prompt0 xs
          | none => findPromptOld prompt0 (enumEntries wf)
        match promptRes with
        | Except.error _ => (notes3 ++ "🔧 ComfyUI Workflow data found (raw)\n", prompt0)
        | Except.ok p2 => (notes3, p2)

/-- comfyuiParser.js lines 87-105: the `chunks.prompt` branch (guarded
by the caller with `chunks.prompt && !aiInfo.prompt`): JSON parse, then
scan top-level string properties of an object-typed result (for-in over
null iterates nothing); on parse failure fall back to the raw string
when longer than 5 characters. -/
def comfyPrompt (p cur : String) : String :=
  match jsonParse p with
  | some pd =>
    match pd with
    | JsVal.obj _ => scanPromptData cur (enumEntries pd)
    | JsVal.arr _ => scanPromptData cur (enumEntries pd)
    | _ => cur
  | none => if p.length > 5 && cur == "" then p else cur

/-- src/js/parsers/comfyuiParser.js, extractComfyUIInfo (lines 10-129),
with `today` standing for `new Date().toLocaleDateString()`. -/
def extractComfyUIInfo (today : String) (chunks : Chunks) : AiInfo :=
  let aiInfo : AiInfo := {}
  let wres :=
    if truthyS chunks.workflow then comfyWorkflow today (chunks.workflow.getD "") aiInfo.notes aiInfo.prompt
    else (aiInfo.notes, aiInfo.prompt)
  let i1 := { aiInfo with notes := wres.1, prompt := wres.2 }
  let i2 :=
    if truthyS chunks.prompt && (i1.prompt == "") then
      { i1 with prompt := comfyPrompt (chunks.prompt.getD "") i1.prompt }
    else i1
  let i3 :=
    if truthyS chunks.parameters then
      { i2 with
        prompt := (if i2.prompt == "" then chunks.parameters.getD "" else i2.prompt),
        notes := i2.notes ++ "🤖 A1111 Parameters detected\n",
        tags := "AUTOMATIC1111,AI-Generated" }
    else i2
  let i4 := if truthyS chunks.Software then { i3 with model := JsVal.s (chunks.Software.getD "") } else i3
  let i5 := if truthyS chunks.software then { i4 with model := JsVal.s (chunks.software.getD "") } else i4
  if truthyS chunks.workflow || (truthyS chunks.prompt && !truthyS chunks.parameters) then
    { i5 with tags := if i5.tags == "" then "ComfyUI,AI-Generated" else i5.tags }
  else i5

/-- Byte read `uint8Array[i]`: `none` is JS `undefined` (out of range).
Buffer bytes are below 256, as in a Uint8Array. -/
def byteAt (buf : List Nat) (i : Int) : Option Nat :=
  if 0 ≤ i then buf.get? i.toNat else none

/-- ToInt32 of a value below 2^32: the signed 32-bit reading that the
JS operators `<<` and `|` produce. -/
def toInt32 (n : Nat) : Int :=
  let m : Nat := n % 2 ^ 32
  if m < 2 ^ 31 then (m : Int) else (m : Int) - 2 ^ 32

/-- pngChunkExtractor.js lines 23-24: the chunk length
`(b[o] << 24) | (b[o+1] << 16) | (b[o+2] << 8) | b[o+3]` — a signed
32-bit result; an out-of-range read contributes 0 (ToInt32(undefined)).
For bytes below 256 the bit-or of the disjoint shifted fields equals
their sum. -/
def chunkLen32 (buf : List Nat) (off : Int) : Int :=
  toInt32 ((byteAt buf off).getD 0 % 256 * 2 ^ 24 + (byteAt buf (off + 1)).getD 0 % 256 * 2 ^ 16 +
    (byteAt buf (off + 2)).getD 0 % 256 * 2 ^ 8 + (byteAt buf (off + 3)).getD 0 % 256)

/-- The character code used for the chunk-type comparison:
`String.fromCharCode(undefined)` is the NUL character. -/
def typeCode (buf : List Nat) (i : Int) : Nat := (byteAt buf i).getD 0

/-- `Uint8Array.prototype.slice(b, e)`: relative indices, negative
values count from the end, clamped to the buffer. -/
def jsSliceU8 (l : List Nat) (b e : Int) : List Nat :=
  let len : Int := l.length
  let lo := if b < 0 then max (len + b) 0 else min b len
  let hi := if e < 0 then max (len + e) 0 else min e len
  ((l.drop lo.toNat).take (hi - lo).toNat)

/-- Index of the first zero byte, `-1`-free form of `indexOf(0)`. -/
def findZero : List Nat → Option Nat
  | [] => none
  | b :: rest => if b = 0 then some 0 else (findZero rest).map (· + 1)

/-- Store `chunks[keyword] = text`: JS object assignment (an existing
key keeps its position and takes the new value). Keys and values are
kept as byte lists; TextDecoder decoding does not affect any claim
(two keyword byte lists decode to the same JS string only through
U+FFFD replacement collisions, which no claim exercises). -/
def chunkIns (acc : List (List Nat × List Nat)) (k v : List Nat) : List (List Nat × List Nat) :=
  match acc with
  | [] => [(k, v)]
  | (k0, v0) :: rest => if k0 = k then (k0, v) :: rest else (k0, v0) :: chunkIns rest k v

/-- pngChunkExtractor.js lines 21-50: one `while` walk step per fuel
unit. `none` means the fuel ran out with the loop still running; the
loop itself has no termination guarantee (see `pngLoop_hang_...`). -/
def pngLoop (buf : List Nat) : Nat → Int → List (List Nat × List Nat) → Option (List (List Nat × List Nat))
  | 0, _, _ => none
  | fuel + 1, off, acc =>
    if off < (buf.length : Int) - 8 then
      let length := chunkLen32 buf off
      let t := (typeCode buf (off + 4), typeCode buf (off + 5), typeCode buf (off + 6), typeCode buf (off + 7))
      let isTEXt := t = (116, 69, 88, 116)
      let isText := isTEXt ∨ t = (105, 84, 88, 116) ∨ t = (122, 84, 88, 116)
      let acc2 :=
        if isText then
          if isTEXt then
            let dataStart := off + 8
            let chunkData := jsSliceU8 buf dataStart (dataStart + length)
            match findZero chunkData with
            | some nullIndex => chunkIns acc (chunkData.take nullIndex) (chunkData.drop (nullIndex + 1))
            | none => acc
          else acc
        else acc
      pngLoop buf fuel (off + (8 + length + 4)) acc2
    else some acc

/-- pngChunkExtractor.js lines 14-17: the signature check reads only
the first four bytes (0x89 0x50 0x4E 0x47). -/
def pngSigOk (buf : List Nat) : Bool :=
  byteAt buf 0 == some 137 && byteAt buf 1 == some 80 &&
  byteAt buf 2 == some 78 && byteAt buf 3 == some 71

/-- src/js/parsers/pngChunkExtractor.js, extractPNGTextChunks (lines
10-53). The walk is run with fuel `buf.length + 64`; `none` reports
that the walk had not exited within that many iterations (a genuinely
non-terminating input exists, see the C2 theorem). -/
def extractPNGTextChunks (buf : List Nat) : Option (List (List Nat × List Nat)) :=
  if pngSigOk buf then pngLoop buf (buf.length + 64) 8 [] else some []

/-- src/js/thumbnailGenerator.js, generateThumbnailWithPosition (lines
96-115): the source crop rectangle (srcX, srcY, srcWidth, srcHeight)
computed from the source size `w × h`, the target size `tw × th` and
the focal position `(px, py)` in percent. JS double arithmetic is
modelled by exact rationals. -/
def thumbnailCropRect (w h tw th px py : ℚ) : ℚ × ℚ × ℚ × ℚ :=
  let ar := w / h
  let tar := tw / th
  if tar < ar then
    let srcHeight := h
    let srcWidth := srcHeight * tar
    ((w - srcWidth) * (px / 100), 0, srcWidth, srcHeight)
  else
    let srcWidth := w
    let srcHeight := srcWidth / tar
    (0, (h - srcHeight) * (py / 100), srcWidth, srcHeight)

/-- utils.js (src/unnamed/part_011) cleanPromptText: JS `\w` (ASCII). -/
def isWordChar (c : Char) : Bool :=
  ('a' ≤ c && c ≤ 'z') || ('A' ≤ c && c ≤ 'Z') || ('0' ≤ c && c ≤ '9') || c == '_'

/-- The boilerplate literal of the first regex, lowercase. -/
def boilerChars : List Char := "aidma-niji, niji, anime style, sharp image".data

/-- First cleaning regex `/^(aidma-niji, ... sharp image\s*)/i`: if the
lowercased input starts with the literal, drop it and the greedy
whitespace run after it. -/
def stripBoiler (cs : List Char) : List Char :=
  if (cs.take boilerChars.length).map Char.toLower = boilerChars then
    (cs.drop boilerChars.length).dropWhile isJsWs
  else cs

/-- Case-insensitive literal prefix test, returning the remainder. -/
def dropLitCI : List Char → List Char → Option (List Char)
  | [], cs => some cs
  | _ :: _, [] => none
  | l :: ls, c :: cs => if c.toLower == l then dropLitCI ls cs else none

/-- Match of `/\bembedding:[\w\d_]+/i` at the current position
(`prevW` = the previous character is a word character, so `\b` fails):
returns the input after the match. -/
def matchEmbAt (prevW : Bool) (cs : List Char) : Option (List Char) :=
  if prevW then none
  else
    match dropLitCI "embedding:".data cs with
    | none => none
    | some rest =>
      let run := rest.takeWhile isWordChar
      if run.length = 0 then none else some (rest.drop run.length)

/-- Global replace of `/\bembedding:[\w\d_]+/gi` by the empty string:
left-to-right scan; after a match the scan resumes right after it (the
last matched character is a word character, so `\b` fails there). Each
step consumes at least one character, so fuel `length + 1` suffices. -/
def replEmbGo : Nat → Bool → List Char → List Char
  | 0, _, rest => rest
  | f + 1, prevW, cs =>
    match matchEmbAt prevW cs with
    | some rest => replEmbGo f true rest
    | none =>
      match cs with
      | [] => []
      | c :: rest => c :: replEmbGo f (isWordChar c) rest

/-- Match of `/\b(kw1|...):\s*X+(?:,?)/i` at the current position for a
keyword alternation with numeric class `numC` (`[\d.]` or `\d`):
returns the input after the match and whether the last matched
character is a word character (for the `\b` of the next match). -/
def matchParamAt (kws : List (List Char)) (numC : Char → Bool) (prevW : Bool) (cs : List Char) :
    Option (List Char × Bool) :=
  if prevW then none
  else
    kws.firstM (fun kw =>
      match dropLitCI (kw ++ [':']) cs with
      | none => none
      | some rest =>
        let sp := rest.dropWhile isJsWs
        let run := sp.takeWhile numC
        if run.length = 0 then none
        else
          let after := sp.drop run.length
          match after with
          | ',' :: rest2 => some (rest2, false)
          | _ => some (after, isWordChar (run.getLastD ' ')))

/-- Global replace of one parameter-noise regex by the empty string
(cleanPromptText lines 54-55), scanning left to right. -/
def replParamGo (kws : List (List Char)) (numC : Char → Bool) : Nat → Bool → List Char → List Char
  | 0, _, rest => rest
  | f + 1, prevW, cs =>
    match matchParamAt kws numC prevW cs with
    | some (rest, lastW) => replParamGo kws numC f lastW rest
    | none =>
      match cs with
      | [] => []
      | c :: rest => c :: replParamGo kws numC f (isWordChar c) rest

/-- Global replace of `/\s+/g` by a single space. -/
def collapseWs : Nat → List Char → List Char
  | 0, rest => rest
  | _ + 1, [] => []
  | f + 1, c :: rest =>
    if isJsWs c then ' ' :: collapseWs f (rest.dropWhile isJsWs)
    else c :: collapseWs f rest

/-- utils.js (src/unnamed/part_011) lines 40-65, cleanPromptText: strip
the boilerplate prefix, remove embedding references, remove the two
parameter-noise vocabularies, collapse whitespace, trim. A falsy input
("") returns "" at once. -/
def cleanPromptText (t : String) : String :=
  if t == "" then ""
  else
    let cs0 := t.data
    let fuel := cs0.length + 1
    let cs1 := stripBoiler cs0
    let cs2 := replEmbGo fuel false cs1
    let cs3 := replParamGo ["weight".data, "strength".data, "scale".data, "ratio".data]
      (fun c => c.isDigit || c == '.') fuel false cs2
    let cs4 := replParamGo ["steps".data, "cfg".data, "seed".data] Char.isDigit fuel false cs3
    let cs5 := collapseWs fuel cs4
    String.mk (cs5.dropWhile isJsWs |>.reverse.dropWhile isJsWs |>.reverse)

/-- Substring containment of strings. -/
def strContains (needle hay : String) : Prop := ∃ a b : String, hay = a ++ needle ++ b

/-- The chunk map of claim C7. -/
def chunksC7 : Chunks :=
  { prompt := some "\x7b\"tool\":\"ChatGPT-4\",\"prompt\":\"a red fox\",\"date_generated\":\"2024-01-01\"\x7d" }

/-- C7: given the chunk map
`\x7bprompt: '\x7b"tool":"ChatGPT-4","prompt":"a red fox","date_generated":"2024-01-01"\x7d'\x7d`,
extractChatGPTInfo returns model "ChatGPT-4", a prompt containing
"a red fox" under a "USER PROMPT" header line, and notes containing the
date "2024-01-01". -/
theorem extractChatGPTInfo_c7_example :
    (extractChatGPTInfo chunksC7).model = JsVal.s "ChatGPT-4" ∧
    (extractChatGPTInfo chunksC7).prompt = "USER PROMPT:\na red fox" ∧
    strContains "a red fox" (extractChatGPTInfo chunksC7).prompt ∧
    strContains "USER PROMPT:\n" (extractChatGPTInfo chunksC7).prompt ∧
    strContains "2024-01-01" (extractChatGPTInfo chunksC7).notes := by
  refine ⟨rfl, rfl, ⟨"USER PROMPT:\n", "", by decide⟩, ⟨"", "a red fox", by decide⟩,
    ⟨"🤖 ChatGPT Image Generation\n📅 Generated: ", "\n", by decide⟩⟩

/-- The chunk map of claim C8. -/
def chunksC8 : Chunks :=
  { workflow := some "\x7b\"nodes\":[\x7b\"type\":\"CLIPTextEncode\",\"widgets_values\":[\"a cat sitting on a mat, 4k\"]\x7d]\x7d" }

/-- C8: given the chunk map
`\x7bworkflow: '\x7b"nodes":[\x7b"type":"CLIPTextEncode","widgets_values":["a cat sitting on a mat, 4k"]\x7d]\x7d'\x7d`,
extractComfyUIInfo (for any current date string) returns prompt
"a cat sitting on a mat, 4k" and tags that include "ComfyUI". -/
theorem extractComfyUIInfo_c8_example :
    ∀ today : String,
      (extractComfyUIInfo today chunksC8).prompt = "a cat sitting on a mat, 4k" ∧
      (extractComfyUIInfo today chunksC8).tags = "ComfyUI,AI-Generated" ∧
      strContains "ComfyUI" (extractComfyUIInfo today chunksC8).tags := by
  intro today
  exact ⟨rfl, rfl, ⟨"", ",AI-Generated", rfl⟩⟩

/-- C10: a chunk map with no `prompt` key makes extractChatGPTInfo
return the record with all five fields equal to the empty string (no
tags, no notes). -/
theorem extractChatGPTInfo_no_prompt :
    ∀ chunks : Chunks, chunks.prompt = none →
      extractChatGPTInfo chunks = { title := "", prompt := "", model := JsVal.s "", tags := "", notes := "" } := by
  intro chunks hp
  unfold extractChatGPTInfo
  rw [hp]
  rfl

/-- C10 witness: the empty chunk map evaluates to the all-empty record. -/
theorem extractChatGPTInfo_no_prompt_witness :
    extractChatGPTInfo {} = { title := "", prompt := "", model := JsVal.s "", tags := "", notes := "" } :=
  extractChatGPTInfo_no_prompt {} rfl

/-- A 17-byte buffer: the full 8-byte PNG signature, then a chunk whose
4-byte length field is FF FF FF F4 — read through the JS `<<`/`|`
operators this is the signed 32-bit value -12, so the cursor advance
`offset += 8 + length + 4` adds zero — then 5 filler bytes so the loop
condition `offset < length - 8` holds at offset 8. -/
def pngHangBuf : List Nat := [137, 80, 78, 71, 13, 10, 26, 10, 255, 255, 255, 244, 0, 0, 0, 0, 0]

/-- C2: refuted by the code — the chunk walk does not terminate on
every buffer. On `pngHangBuf` the length field reads as -12, the
cursor stays at offset 8 forever, and the walk never returns: for
every fuel bound the loop is still running, so the fuelled model of
extractPNGTextChunks reports `none`. (The claim that the walk always
terminates and returns what was collected is the spec's stated intent;
this input makes the JS `while` loop spin forever.) -/
theorem extractPNGTextChunks_c2_nonterminating :
    extractPNGTextChunks pngHangBuf = none ∧
    chunkLen32 pngHangBuf 8 = -12 ∧
    ∀ n : ℕ, pngLoop pngHangBuf n 8 [] = none := by
  refine ⟨rfl, rfl, ?_⟩
  intro n
  induction n with
  | zero => rfl
  | succ k ih => exact ih

/-- A buffer whose first 4 bytes are the PNG signature bytes but whose
bytes 4-7 are zero (the correct 8-byte signature continues 13 10 26 10),
followed by one well-formed tEXt chunk with keyword byte `k` (107) and
text `hello`. -/
def pngBadSigBuf : List Nat := [137, 80, 78, 71, 0, 0, 0, 0,
  0, 0, 0, 7, 116, 69, 88, 116, 107, 0, 104, 101, 108, 108, 111, 0, 0, 0, 0]

/-- C3 counterexample: a buffer that does not begin with the correct
8-byte PNG signature (byte 4 is 0, not 13) for which
extractPNGTextChunks returns a non-empty mapping — only the first four
signature bytes are checked. -/
theorem extractPNGTextChunks_c3_cx :
    byteAt pngBadSigBuf 4 = some 0 ∧
    extractPNGTextChunks pngBadSigBuf = some [([107], [104, 101, 108, 108, 111])] ∧
    extractPNGTextChunks pngBadSigBuf ≠ some [] := by
  refine ⟨rfl, rfl, ?_⟩
  rw [show extractPNGTextChunks pngBadSigBuf = some [([107], [104, 101, 108, 108, 111])] from rfl]
  simp

/-- C3 (amended): for every byte buffer that does not begin with the
four bytes 0x89 0x50 0x4E 0x47 — the half of the PNG signature the code
actually checks — extractPNGTextChunks returns an empty mapping. -/
theorem extractPNGTextChunks_bad_sig_empty :
    ∀ buf : List Nat, pngSigOk buf = false → extractPNGTextChunks buf = some [] := by
  intro buf h
  unfold extractPNGTextChunks
  rw [h]
  rfl

/-- C3 witness: a three-byte buffer fails the signature check and
yields the empty mapping. -/
theorem extractPNGTextChunks_bad_sig_empty_witness :
    extractPNGTextChunks [1, 2, 3] = some [] :=
  extractPNGTextChunks_bad_sig_empty [1, 2, 3] rfl

/-- C9 counterexample: a chunk map whose `prompt` value is present but
empty. The empty string is not parseable JSON, yet the guard
`if (chunks.prompt)` is falsy on it, so extractChatGPTInfo emits no
parse-failure note and no tags at all. -/
theorem extractChatGPTInfo_c9_cx :
    jsonParse "" = none ∧
    (extractChatGPTInfo { prompt := some "" }).tags = "" ∧
    (extractChatGPTInfo { prompt := some "" }).notes = "" ∧
    (extractChatGPTInfo { prompt := some "" }).tags ≠ "ChatGPT,AI-Generated" := by
  refine ⟨rfl, rfl, rfl, ?_⟩
  rw [show (extractChatGPTInfo { prompt := some "" }).tags = "" from rfl]
  simp

/-- C9 (amended): for every chunk map whose `prompt` value is present,
non-empty, and not parseable JSON, extractChatGPTInfo does not throw:
its notes are exactly the parse-failure annotation and its tags are
"ChatGPT,AI-Generated". -/
theorem extractChatGPTInfo_parse_failure :
    ∀ (chunks : Chunks) (p : String), chunks.prompt = some p → p ≠ "" → jsonParse p = none →
      (extractChatGPTInfo chunks).notes = "🤖 ChatGPT data found but could not parse JSON\n" ∧
      (extractChatGPTInfo chunks).tags = "ChatGPT,AI-Generated" := by
  intro chunks p hp hne hparse
  unfold extractChatGPTInfo
  rw [hp]
  have ht : truthyS (some p) = true := by
    simp [truthyS]
    exact hne
  rw [ht]
  simp only [Option.getD_some, if_true]
  rw [hparse]
  exact ⟨rfl, rfl⟩

/-- C9 witness: the non-JSON prompt value "nope" produces the
annotation and the generic tags. -/
theorem extractChatGPTInfo_parse_failure_witness :
    (extractChatGPTInfo { prompt := some "nope" }).notes = "🤖 ChatGPT data found but could not parse JSON\n" ∧
    (extractChatGPTInfo { prompt := some "nope" }).tags = "ChatGPT,AI-Generated" :=
  extractChatGPTInfo_parse_failure { prompt := some "nope" } "nope" rfl (by decide) rfl

/-- C4 counterexample: cleanPromptText is not idempotent. On
"weight:steps: 5 1.5" the first pass removes only the `steps: 5` token
(the `weight:` at the start is not followed by digits there), leaving
"weight: 1.5" — which a second pass removes entirely. -/
theorem cleanPromptText_not_idempotent_cx :
    cleanPromptText "weight:steps: 5 1.5" = "weight: 1.5" ∧
    cleanPromptText (cleanPromptText "weight:steps: 5 1.5") = "" ∧
    cleanPromptText (cleanPromptText "weight:steps: 5 1.5") ≠ cleanPromptText "weight:steps: 5 1.5" := by
  exact ⟨by decide, by decide, by decide⟩

/-- C4 (amended): cleanPromptText is idempotent on already-clean
strings (every fixed point stays fixed) and maps a string consisting of
only the boilerplate prefix to the empty string, itself a fixed point;
it is not idempotent on all inputs, because one pass can expose a new
removable pattern (see the counterexample). -/
theorem cleanPromptText_idempotent_amended :
    (∀ x : String, cleanPromptText x = x → cleanPromptText (cleanPromptText x) = cleanPromptText x) ∧
    cleanPromptText "aidma-niji, niji, anime style, sharp image" = "" ∧
    cleanPromptText "" = "" := by
  refine ⟨?_, by decide, by decide⟩
  intro x hx
  rw [hx, hx]

/-- C4 witness: the already-clean string "abc" is a fixed point and
stays one. -/
theorem cleanPromptText_idempotent_amended_witness :
    cleanPromptText (cleanPromptText "abc") = cleanPromptText "abc" :=
  cleanPromptText_idempotent_amended.1 "abc" (by decide)

/-- C1 counterexample: on the all-string chunk map
`\x7bprompt: '\x7b"tool": 42\x7d'\x7d` the record returned by
extractChatGPTInfo has a `model` field that is the number 42, not a
string — chatgptParser.js line 40 copies the parsed `tool` value
untyped. -/
theorem extractChatGPTInfo_c1_cx :
    (extractChatGPTInfo { prompt := some "\x7b\"tool\": 42\x7d" }).model = JsVal.num ⟨42, 0⟩ ∧
    isStrV (extractChatGPTInfo { prompt := some "\x7b\"tool\": 42\x7d" }).model = false :=
  ⟨rfl, rfl⟩

/-- C1 (amended): for every chunk map whose values are all strings,
the records returned by both parsers have all five fields present and
non-null with absent data as the empty string; the four fields `title`,
`prompt`, `tags`, `notes` are strings by construction (the code only
assigns string expressions to them), and the `model` field is a string
in every record returned by extractComfyUIInfo, and in every record
returned by extractChatGPTInfo provided the parsed prompt JSON does not
carry a truthy non-string `tool` field. -/
theorem normalizedMetadata_model_string_amended :
    (∀ (today : String) (chunks : Chunks), isStrV (extractComfyUIInfo today chunks).model = true) ∧
    (∀ chunks : Chunks,
      (∀ (p : String) (d t : JsVal), chunks.prompt = some p → jsonParse p = some d →
        jsGetF d "tool" = some t → jsTruthy t = true → isStrV t = true) →
      isStrV (extractChatGPTInfo chunks).model = true) := by
  constructor
  · intro today chunks
    by_cases h1 : truthyS chunks.workflow <;>
    by_cases h2 : truthyS chunks.prompt <;>
    by_cases h3 : truthyS chunks.parameters <;>
    by_cases h4 : truthyS chunks.Software <;>
    by_cases h5 : truthyS chunks.software <;>
    simp [extractComfyUIInfo, h1, h2, h3, h4, h5, isStrV, apply_ite AiInfo.model, apply_ite isStrV]
  · intro chunks h
    cases hcp : chunks.prompt with
    | none =>
      unfold extractChatGPTInfo
      rw [hcp]
      rfl
    | some p =>
      by_cases hne : p = ""
      · unfold extractChatGPTInfo
        rw [hcp, hne]
        rfl
      · unfold extractChatGPTInfo
        rw [hcp]
        have ht : truthyS (some p) = true := by
          simp [truthyS]
          exact hne
        rw [ht]
        simp only [if_true, Option.getD_some]
        cases hd : jsonParse p with
        | none => rfl
        | some d =>
          by_cases hnull : isNullV d = true
          · simp [hnull, isStrV]
          · simp only [hnull, if_false, Bool.false_eq_true]
            by_cases htool : jsTruthyO (jsGetF d "tool") = true
            · cases hg : jsGetF d "tool" with
              | none => rw [hg] at htool; simp [jsTruthyO] at htool
              | some t =>
                rw [hg] at htool
                simp only [htool, if_true, hg, Option.getD_some]
                exact h p d t hcp hd hg (by simpa [jsTruthyO] using htool)
            · simp only [Bool.not_eq_true] at htool
              simp [htool, isStrV]

/-- C1 witness: the amended theorem applied to a concrete workflow map
and to a concrete prompt map whose `tool` field is the string "x". -/
theorem normalizedMetadata_model_string_amended_witness :
    isStrV (extractComfyUIInfo "1/1/2024" { Software := some "A1111" }).model = true ∧
    isStrV (extractChatGPTInfo { prompt := some "\x7b\"tool\":\"x\"\x7d" }).model = true := by
  constructor
  · exact normalizedMetadata_model_string_amended.1 "1/1/2024" { Software := some "A1111" }
  · refine normalizedMetadata_model_string_amended.2 { prompt := some "\x7b\"tool\":\"x\"\x7d" } ?_
    intro p d t hp hd hg htr
    injection hp with hp1
    subst hp1
    rw [show jsonParse "\x7b\"tool\":\"x\"\x7d" = some (JsVal.obj [("tool", JsVal.s "x")]) from rfl] at hd
    injection hd with hd1
    subst hd1
    rw [show jsGetF (JsVal.obj [("tool", JsVal.s "x")]) "tool" = some (JsVal.s "x") from rfl] at hg
    injection hg with hg1
    subst hg1
    rfl

/-- C6 counterexample: in the chunk map with `parameters` present (with
the empty-string value) and `prompt` present, the `parameters` key is
present yet the returned tags are "ComfyUI,AI-Generated", not
"AUTOMATIC1111,AI-Generated" — the JS guards test truthiness, and an
empty chunk value is falsy. -/
theorem extractComfyUIInfo_c6_cx :
    (extractComfyUIInfo "1/1/2024" { prompt := some "hello", parameters := some "" }).tags = "ComfyUI,AI-Generated" ∧
    (extractComfyUIInfo "1/1/2024" { prompt := some "hello", parameters := some "" }).tags ≠ "AUTOMATIC1111,AI-Generated" := by
  refine ⟨rfl, ?_⟩
  rw [show (extractComfyUIInfo "1/1/2024" { prompt := some "hello", parameters := some "" }).tags = "ComfyUI,AI-Generated" from rfl]
  simp

/-- C6 (amended): for every chunk map, if the `parameters` value is
present and non-empty then extractComfyUIInfo returns tags
"AUTOMATIC1111,AI-Generated" (even when `workflow` or `prompt` are also
present); if `parameters` is absent or empty and a non-empty `workflow`
or `prompt` value is present, it returns tags "ComfyUI,AI-Generated". -/
theorem extractComfyUIInfo_tags_amended : ∀ (today : String) (chunks : Chunks),
    (truthyS chunks.parameters = true → (extractComfyUIInfo today chunks).tags = "AUTOMATIC1111,AI-Generated") ∧
    (truthyS chunks.parameters = false → (truthyS chunks.workflow = true ∨ truthyS chunks.prompt = true) →
      (extractComfyUIInfo today chunks).tags = "ComfyUI,AI-Generated") := by
  intro today chunks
  constructor
  · intro hp
    by_cases h1 : truthyS chunks.workflow <;>
    by_cases h2 : truthyS chunks.prompt <;>
    by_cases h4 : truthyS chunks.Software <;>
    by_cases h5 : truthyS chunks.software <;>
    simp [extractComfyUIInfo, h1, h2, hp, h4, h5, apply_ite AiInfo.tags]
  · intro hp hor
    by_cases h1 : truthyS chunks.workflow <;>
    by_cases h2 : truthyS chunks.prompt <;>
    by_cases h4 : truthyS chunks.Software <;>
    by_cases h5 : truthyS chunks.software <;>
    simp [extractComfyUIInfo, h1, h2, hp, h4, h5, apply_ite AiInfo.tags] <;>
    first
      | rfl
      | (exact absurd hor (by simp [h1, h2]))

/-- C6 witness: the amended theorem applied to a map with a non-empty
`parameters` value alongside a workflow, and to a map with only a
non-empty `workflow` value. -/
theorem extractComfyUIInfo_tags_amended_witness :
    (extractComfyUIInfo "1/1/2024" { workflow := some "junk", parameters := some "masterpiece" }).tags = "AUTOMATIC1111,AI-Generated" ∧
    (extractComfyUIInfo "1/1/2024" { workflow := some "junk" }).tags = "ComfyUI,AI-Generated" :=
  ⟨(extractComfyUIInfo_tags_amended "1/1/2024" { workflow := some "junk", parameters := some "masterpiece" }).1 rfl,
   (extractComfyUIInfo_tags_amended "1/1/2024" { workflow := some "junk" }).2 rfl (Or.inl rfl)⟩

/-- C5: in generateThumbnailWithPosition, for every source image and
every focal position with x and y in 0..100, the crop rectangle
(srcX, srcY, srcWidth, srcHeight) lies entirely within the source
bounds and has positive extent; position 50 places the origin at the
exact center along its axis, position 0 at the smallest valid offset,
and position 100 at the largest valid offset (on the uncropped axis the
crop spans the full extent, so all three coincide at 0 there). -/
theorem thumbnailCropRect_in_bounds (w h tw th px py : ℚ)
    (hw : 0 < w) (hh : 0 < h) (htw : 0 < tw) (hth : 0 < th)
    (hx0 : 0 ≤ px) (hx1 : px ≤ 100) (hy0 : 0 ≤ py) (hy1 : py ≤ 100) :
    0 ≤ (thumbnailCropRect w h tw th px py).1 ∧
    (thumbnailCropRect w h tw th px py).1 + (thumbnailCropRect w h tw th px py).2.2.1 ≤ w ∧
    0 ≤ (thumbnailCropRect w h tw th px py).2.1 ∧
    (thumbnailCropRect w h tw th px py).2.1 + (thumbnailCropRect w h tw th px py).2.2.2 ≤ h ∧
    0 < (thumbnailCropRect w h tw th px py).2.2.1 ∧
    0 < (thumbnailCropRect w h tw th px py).2.2.2 ∧
    (px = 50 → (thumbnailCropRect w h tw th px py).1 = (w - (thumbnailCropRect w h tw th px py).2.2.1) / 2) ∧
    (py = 50 → (thumbnailCropRect w h tw th px py).2.1 = (h - (thumbnailCropRect w h tw th px py).2.2.2) / 2) ∧
    (px = 0 → (thumbnailCropRect w h tw th px py).1 = 0) ∧
    (py = 0 → (thumbnailCropRect w h tw th px py).2.1 = 0) ∧
    (px = 100 → (thumbnailCropRect w h tw th px py).1 = w - (thumbnailCropRect w h tw th px py).2.2.1) ∧
    (py = 100 → (thumbnailCropRect w h tw th px py).2.1 = h - (thumbnailCropRect w h tw th px py).2.2.2) := by
  have htar : 0 < tw / th := div_pos htw hth
  unfold thumbnailCropRect
  dsimp only
  split
  case isTrue hcond =>
    have hs0 : 0 < h * (tw / th) := by positivity
    have hsw : h * (tw / th) < w := by
      have h2 : h * (tw / th) < h * (w / h) := (mul_lt_mul_left hh).2 hcond
      have h3 : h * (w / h) = w := by field_simp
      linarith
    have hp1 : px / 100 ≤ 1 := by
      rw [div_le_one (by norm_num : (0:ℚ) < 100)]
      exact hx1
    have hp0 : 0 ≤ px / 100 := by positivity
    refine ⟨mul_nonneg (by linarith) hp0, ?_, le_refl 0, by linarith, hs0, hh, ?_, ?_, ?_, ?_, ?_, ?_⟩
    · have : (w - h * (tw / th)) * (px / 100) ≤ (w - h * (tw / th)) * 1 :=
        mul_le_mul_of_nonneg_left hp1 (by linarith)
      linarith
    · intro hpx
      rw [hpx]
      ring
    · intro _
      ring
    · intro hpx
      rw [hpx]
      ring
    · intro _
      rfl
    · intro hpx
      rw [hpx]
      ring
    · intro _
      ring
  case isFalse hcond =>
    have hle : w / h ≤ tw / th := not_lt.1 hcond
    have hs0 : 0 < w / (tw / th) := div_pos hw htar
    have hsh : w / (tw / th) ≤ h := by
      rw [div_le_iff₀ htar]
      have h2 : w ≤ (tw / th) * h := (div_le_iff₀ hh).1 hle
      linarith
    have hp1 : py / 100 ≤ 1 := by
      rw [div_le_one (by norm_num : (0:ℚ) < 100)]
      exact hy1
    have hp0 : 0 ≤ py / 100 := by positivity
    refine ⟨le_refl 0, by linarith, mul_nonneg (by linarith) hp0, ?_, hw, hs0, ?_, ?_, ?_, ?_, ?_, ?_⟩
    · have : (h - w / (tw / th)) * (py / 100) ≤ (h - w / (tw / th)) * 1 :=
        mul_le_mul_of_nonneg_left hp1 (by linarith)
      linarith
    · intro _
      ring
    · intro hpy
      rw [hpy]
      ring
    · intro _
      rfl
    · intro hpy
      rw [hpy]
      ring
    · intro _
      ring
    · intro hpy
      rw [hpy]
      ring

/-- C5 witness: a 200 x 100 source at a 100 x 100 target with the
centered position (50, 50). -/
theorem thumbnailCropRect_in_bounds_witness :
    0 ≤ (thumbnailCropRect 200 100 100 100 50 50).1 ∧
    (thumbnailCropRect 200 100 100 100 50 50).1 + (thumbnailCropRect 200 100 100 100 50 50).2.2.1 ≤ 200 ∧
    0 ≤ (thumbnailCropRect 200 100 100 100 50 50).2.1 ∧
    (thumbnailCropRect 200 100 100 100 50 50).2.1 + (thumbnailCropRect 200 100 100 100 50 50).2.2.2 ≤ 100 ∧
    0 < (thumbnailCropRect 200 100 100 100 50 50).2.2.1 ∧
    0 < (thumbnailCropRect 200 100 100 100 50 50).2.2.2 ∧
    ((50 : ℚ) = 50 → (thumbnailCropRect 200 100 100 100 50 50).1 = (200 - (thumbnailCropRect 200 100 100 100 50 50).2.2.1) / 2) ∧
    ((50 : ℚ) = 50 → (thumbnailCropRect 200 100 100 100 50 50).2.1 = (100 - (thumbnailCropRect 200 100 100 100 50 50).2.2.2) / 2) ∧
    ((50 : ℚ) = 0 → (thumbnailCropRect 200 100 100 100 50 50).1 = 0) ∧
    ((50 : ℚ) = 0 → (thumbnailCropRect 200 100 100 100 50 50).2.1 = 0) ∧
    ((50 : ℚ) = 100 → (thumbnailCropRect 200 100 100 100 50 50).1 = 200 - (thumbnailCropRect 200 100 100 100 50 50).2.2.1) ∧
    ((50 : ℚ) = 100 → (thumbnailCropRect 200 100 100 100 50 50).2.1 = 100 - (thumbnailCropRect 200 100 100 100 50 50).2.2.2) :=
  thumbnailCropRect_in_bounds 200 100 100 100 50 50 (by norm_num) (by norm_num) (by norm_num)
    (by norm_num) (by norm_num) (by norm_num) (by norm_num) (by norm_num)
